import Mathlib

/-!
Shallow embedding of the SICP style linter (`linter.c`) and proofs about it.

Lines are modelled as `List Char`, each ending with a newline character, as
the C driver (`getline`) guarantees.  C strings read through a pointer are
modelled with an implicit NUL terminator past the end of the list.  Machine
integers that can wrap (`uint8_t stack[]`) take their values modulo 256;
`int` fields (`depth`, `quoted_align`, `num_wrappers`) are modelled as `Int`.
The C `assert` calls at the top of `lint_line` are modelled by the driver
returning `Option.none` (the process aborts).
-/

namespace SchemeLint

/-- The NUL character, standing for the C string terminator. -/
def nul : Char := Char.ofNat 0

/-- The apostrophe character (C character constant for the quote mark). -/
def squote : Char := Char.ofNat 39

/-- The backquote character. -/
def btick : Char := Char.ofNat 96

/-- Read a character of a buffer at an index; past the end this yields NUL,
mirroring reads of a NUL-terminated C buffer. -/
def getC (l : List Char) (i : Nat) : Char := l.getD i nul

/-- First character of a buffer, NUL if empty. -/
def headC (l : List Char) : Char := l.headD nul

/-- C conversion from `int` to `uint8_t` (reduction modulo 256). -/
def intToU8 (x : Int) : Nat := (x % 256).toNat

/-- Length of the maximal run of the character `c` at the head of the list. -/
def countLeading (c : Char) : List Char → Nat
  | [] => 0
  | x :: xs => if x = c then countLeading c xs + 1 else 0

/-- C `strncmp` on NUL-terminated byte strings: compare at most `n`
characters, stopping early at the first difference or at a NUL present in
both positions.  Only the sign of the result is ever used. -/
def strncmp : List Char → List Char → Nat → Int
  | _, _, 0 => 0
  | a, b, n + 1 =>
      let ca := getC a 0
      let cb := getC b 0
      if ca ≠ cb then (ca.toNat : Int) - (cb.toNat : Int)
      else if ca = nul then 0
      else strncmp a.tail b.tail n

/-- `MAX_COLUMNS` from linter.c. -/
def MAX_COLUMNS : Nat := 80

/-- `MAX_DEPTH` from linter.c. -/
def MAX_DEPTH : Int := 64

/-- The `NO_ALIGN_COMMENT` sentinel from linter.c. -/
def NO_ALIGN : List Char := "; NOALIGN\n".data

/-- Bit flags of `enum IndentRules`, as three booleans. -/
structure IndentRules where
  special : Bool
  wrapper : Bool
  uniform : Bool
deriving DecidableEq, Repr

/-- `IR_DEFAULT`: the empty rule set. -/
def IR_DEFAULT : IndentRules := ⟨false, false, false⟩

/-- The static `INDENT_RULES` table of linter.c, in source order. -/
def INDENT_RULES : List (List Char × IndentRules) :=
  [("SICP".data, ⟨false, true, false⟩),
   ("begin".data, ⟨true, false, true⟩),
   ("cond".data, ⟨true, false, true⟩),
   ("library".data, ⟨true, true, false⟩),
   ("Chapter".data, ⟨true, false, false⟩),
   ("Exercise".data, ⟨true, false, false⟩),
   ("Section".data, ⟨true, false, false⟩),
   ("case".data, ⟨true, false, false⟩),
   ("define".data, ⟨true, false, false⟩),
   ("define-record-type".data, ⟨true, false, false⟩),
   ("define-syntax".data, ⟨true, false, false⟩),
   ("lambda".data, ⟨true, false, false⟩),
   ("let".data, ⟨true, false, false⟩),
   ("let*".data, ⟨true, false, false⟩),
   ("let-syntax".data, ⟨true, false, false⟩),
   ("let-values".data, ⟨true, false, false⟩),
   ("letrec".data, ⟨true, false, false⟩),
   ("parameterize".data, ⟨true, false, false⟩),
   ("syntax-case".data, ⟨true, false, false⟩),
   ("syntax-rules".data, ⟨true, false, false⟩),
   ("unless".data, ⟨true, false, false⟩),
   ("when".data, ⟨true, false, false⟩),
   ("with-mutex".data, ⟨true, false, false⟩),
   ("with-syntax".data, ⟨true, false, false⟩)]

/-- The linear scan inside `lookup_indent_rules`: first entry whose name
compares equal to the first `len` characters of `s` under `strncmp`. -/
def scanRules (s : List Char) (len : Nat) :
    List (List Char × IndentRules) → Option IndentRules
  | [] => Option.none
  | e :: rest =>
      if strncmp s e.1 len = 0 then Option.some e.2 else scanRules s len rest

/-- `lookup_indent_rules` from linter.c: linear scan of the table; a wrapper
bit is only kept when the operator starts at column 1 (open paren at column
0); no match yields `IR_DEFAULT`. -/
def lookup_indent_rules (line : List Char) (start len : Nat) : IndentRules :=
  match scanRules (line.drop start) len INDENT_RULES with
  | Option.some r => if start ≠ 1 then { r with wrapper := false } else r
  | Option.none => IR_DEFAULT

/-- Specification-side reformulation of the table scan: the first entry
whose name begins with the given token (used to characterise
`lookup_indent_rules`; `strncmp` with length `len` compares exactly the
token against a prefix of the entry name). -/
def scanTok (tok : List Char) : List (List Char × IndentRules) → Option IndentRules
  | [] => Option.none
  | e :: rest =>
      if e.1.take tok.length = tok then Option.some e.2 else scanTok tok rest

/-- `enum ImportBlock` from linter.c. -/
inductive ImportBlock
  | none
  | sec
  | use
  | id
deriving DecidableEq, Repr

/-- The C `state->import_mode--` executed when a delimiter closes (only
reached under the guard `import_mode != IB_NONE`). -/
def predIB : ImportBlock → ImportBlock
  | .none => .none
  | .sec => .none
  | .use => .sec
  | .id => .use

/-- `lookup_import_block` from linter.c. -/
def lookup_import_block (line : List Char) (start len : Nat) : ImportBlock :=
  let s := line.drop start
  if start = 1 ∧ (strncmp s "Chapter".data len = 0 ∨
      strncmp s "Section".data len = 0 ∨ strncmp s "Exercise".data len = 0) then
    .sec
  else if start = 3 ∧ strncmp s "use".data len = 0 then .use
  else .none

/-- The tail of `correct_id_order` after its scanning loop exits (linter.c
lines 190-199): a missing character is treated as a terminating dot, and with
no pending in-segment difference the identifier that ended first wins. -/
def idEnd (line : List Char) (start len : Nat) (p : List Char) (j : Nat)
    (cmp : Int) : Bool :=
  let ei := headC p = nul
  let ci := if headC p = nul then '.' else headC p
  let cj := if j = len then '.' else getC line (start + j)
  if ci = '.' ∧ cj = '.' ∧ cmp ≠ 0 then decide (cmp < 0) else decide ei

/-- The scanning loop of `correct_id_order` (linter.c lines 170-189).  `p` is
the unread suffix of `prev`, `isFirst` records whether we are at index 0, `j`
indexes the current identifier, and `cmp` is the remembered in-segment
difference. -/
def idLoop (line : List Char) (start len : Nat) :
    List Char → Bool → Nat → Int → Bool
  | [], _, j, cmp => idEnd line start len [] j cmp
  | c :: p, isFirst, j, cmp =>
      if c = nul ∨ ¬ j < len then idEnd line start len (c :: p) j cmp
      else
        let ci := c
        let cj := getC line (start + j)
        if isFirst ∧ ci ≠ cj then decide (ci < cj)
        else if ci = '.' ∧ cj = '.' then
          if cmp ≠ 0 then decide (cmp < 0)
          else idLoop line start len p false (j + 1) 0
        else if ci = '.' then false
        else if cj = '.' then true
        else
          idLoop line start len p false (j + 1)
            (if cmp = 0 then (ci.toNat : Int) - (cj.toNat : Int) else cmp)

/-- `correct_id_order` from linter.c: whether the Chapter/Section/Exercise id
`prev` and the id at `line[start ..< start+len]` are ordered correctly. -/
def correct_id_order (prev line : List Char) (start len : Nat) : Bool :=
  idLoop line start len prev true 0 0

/-- `correct_name_order` from linter.c: plain `strncmp` comparison. -/
def correct_name_order (prev line : List Char) (start len : Nat) : Bool :=
  decide (strncmp prev (line.drop start) len < 0)

/-- The diagnostics emitted through `fail`, one constructor per `fail` call
site of linter.c, carrying the printf arguments where there are any.  The
corresponding message texts are, in order: "multiple blank lines",
"line too long: %d > %d", "trailing whitespace", "too many semicolons",
the three-semicolon first-line-copyright message, the missing-space and
expected-space messages around a semicolon, the illegal tab message,
"incorrect indentation", "unexpected two spaces in a row", the messages for
a space expected before an open and not before a close delimiter, the
wrapper close-at-line-start message, and the two import ordering messages
"incorrect import id ordering: %s > %.*s" and
"incorrect import name ordering: %s > %.*s". -/
inductive Msg
  | multipleBlankLines
  | lineTooLong (shown limit : Nat)
  | trailingWhitespace
  | tooManySemicolons
  | tripleSemicolonNotFirstLine
  | missingSpaceAfterSemicolon
  | expectedSpaceAfterSemicolon
  | illegalTab
  | incorrectIndentation
  | unexpectedTwoSpaces
  | expectedSpaceBeforeSemicolon
  | expectedSpaceBeforeOpen
  | expectedCloseAtLineStart
  | unexpectedSpaceBeforeClose
  | incorrectImportIdOrder (prev word : List Char)
  | incorrectImportNameOrder (prev word : List Char)
deriving DecidableEq, Repr

/-- The text the "line too long" `fail` call formats, given its two printf
arguments. -/
def lineTooLongText (shown limit : Nat) : String :=
  "line too long: " ++ toString shown ++ " > " ++ toString limit

/-- One diagnostic: the 1-based line number, the zero-based column passed to
`fail` (printed 1-based), and the message. -/
structure Diag where
  lineno : Nat
  column : Nat
  msg : Msg
deriving DecidableEq, Repr

/-- The scan modes of the per-character state machine in `lint_line`. -/
inductive Mode
  | indent
  | normal
  | operator
  | string
  | comment
  | commentSpace
deriving DecidableEq, Repr

/-- The local variables of the `lint_line` character loop. -/
structure ScanCtx where
  prev : Char
  escaped : Bool
  two_spaces : Bool
  word_start : Nat
  mode : Mode

/-- `struct State` from linter.c (minus the file name, which only feeds the
diagnostic printer).  The `uint8_t stack[MAX_DEPTH]` array is modelled as a
total map from `Int` indices; values written to it are reduced modulo 256 as
the C narrowing conversion does. -/
structure LintState where
  lineno : Nat
  status : Bool
  prev_blanks : Nat
  in_string : Bool
  num_wrappers : Int
  quoted_align : Int
  depth : Int
  stack : Int → Nat
  import_mode : ImportBlock
  last_import_id : List Char
  last_import_name : List Char

/-- Pointwise update of the modelled `stack` array. -/
def upd (f : Int → Nat) (k : Int) (v : Nat) : Int → Nat :=
  fun j => if j = k then v else f j

/-- `fail`: append one diagnostic at the current line of the state and set the
cumulative error status. -/
def addFail (st : LintState) (ds : List Diag) (col : Nat) (m : Msg) :
    List Diag × LintState :=
  (ds ++ [⟨st.lineno, col, m⟩], { st with status := true })

/-- The statements after the big `switch` in the character loop (linter.c
lines 475-479): record a word start, then update `prev` and `escaped`. -/
def finishStep (ds : List Diag) (ctx : ScanCtx) (st : LintState) (i : Nat)
    (c : Char) : List Diag × ScanCtx × LintState × Bool :=
  let ctx :=
    if ctx.mode = .normal ∧ ctx.prev = ' ' ∧ c ≠ ' ' then
      { ctx with word_start := i }
    else ctx
  let esc : Bool := if c = '\\' then ! ctx.escaped else false
  (ds, { ctx with prev := c, escaped := esc }, st, false)

/-- The open-delimiter case of the character loop (linter.c lines 340-360):
push the new alignment, check the preceding character, update the
quoted-form alignment. -/
def openStep (i : Nat) (c : Char) (ctx : ScanCtx) (st : LintState)
    (ds : List Diag) : List Diag × ScanCtx × LintState × Bool :=
  let d2 := st.depth + 1
  let st1 := { st with depth := d2, stack := upd st.stack d2 ((i + 1) % 256) }
  let r := if i > 0 ∧ ¬ (ctx.prev = ' ' ∨ ctx.prev = '#' ∨ ctx.prev = squote ∨
      ctx.prev = '(' ∨ ctx.prev = ',' ∨ ctx.prev = '@' ∨ ctx.prev = '[' ∨
      ctx.prev = btick) then addFail st1 ds i .expectedSpaceBeforeOpen
    else (ds, st1)
  let st2 :=
    if ctx.prev = squote ∨ (r.2.quoted_align ≠ -1 ∧ (ctx.prev = '(' ∨ ctx.prev = '[')) then
      { r.2 with quoted_align := (i : Int) + 1 }
    else { r.2 with quoted_align := -1 }
  finishStep r.1 { ctx with mode := .operator } st2 i c

/-- The close-delimiter case of the character loop (linter.c lines 361-387):
wrapper and spacing checks, pop the stack, finalize a pending import
comparison, step the import mode back. -/
def closeStep (line : List Char) (i : Nat) (c : Char) (ctx : ScanCtx)
    (st : LintState) (ds : List Diag) : List Diag × ScanCtx × LintState × Bool :=
  let r1 := if i ≠ 0 ∧ st.depth = st.num_wrappers then
      addFail st ds i .expectedCloseAtLineStart
    else (ds, st)
  let r2 := if ctx.prev = ' ' then addFail r1.2 r1.1 i .unexpectedSpaceBeforeClose
    else (r1.1, r1.2)
  let st3 := { r2.2 with depth := r2.2.depth - 1 }
  let r3 :=
    if st3.import_mode ≠ ImportBlock.none then
      let r4 :=
        if st3.import_mode = ImportBlock.id then
          let start := ctx.word_start
          let len := i - start
          let r5 :=
            if ¬ correct_name_order st3.last_import_name line start len then
              addFail st3 r2.1 start
                (.incorrectImportNameOrder st3.last_import_name
                  ((line.drop start).take len))
            else (r2.1, st3)
          (r5.1, { r5.2 with last_import_name := [] })
        else if st3.import_mode = ImportBlock.use then
          (r2.1, { st3 with last_import_id := [] })
        else (r2.1, st3)
      (r4.1, { r4.2 with import_mode := predIB r4.2.import_mode })
    else (r2.1, st3)
  finishStep r3.1 { ctx with mode := .normal } r3.2 i c

/-- The operator-classification step run when a space or the terminator ends
the first token after an open delimiter (linter.c lines 393-441). -/
def classifyStep (line : List Char) (i : Nat) (c : Char) (ctx : ScanCtx)
    (st : LintState) (ds : List Diag) : List Diag × ScanCtx × LintState × Bool :=
  let start := st.stack st.depth
  let len := i - start
  let rules := lookup_indent_rules line start len
  let st1 := if rules.wrapper then
      { st with num_wrappers := st.num_wrappers + 1 }
    else st
  let st2 :=
    if c = ' ' then
      if rules.special ∧ ¬ rules.uniform then
        { st1 with stack := upd st1.stack st1.depth ((st1.stack st1.depth + 1) % 256) }
      else
        { st1 with stack := upd st1.stack st1.depth ((i + 1) % 256) }
    else
      if rules.special then
        { st1 with stack := upd st1.stack st1.depth ((st1.stack st1.depth + 1) % 256) }
      else st1
  let block := lookup_import_block line start len
  let r :=
    match st2.import_mode with
    | .none => if block = ImportBlock.sec then (ds, { st2 with import_mode := .sec })
        else (ds, st2)
    | .sec => if block = ImportBlock.use then (ds, { st2 with import_mode := .use })
        else (ds, st2)
    | .use =>
        let st3 := { st2 with import_mode := .id }
        let r6 :=
          if ¬ correct_id_order st3.last_import_id line start len then
            addFail st3 ds start
              (.incorrectImportIdOrder st3.last_import_id
                ((line.drop start).take len))
          else (ds, st3)
        (r6.1, { r6.2 with last_import_id := (line.drop start).take len })
    | .id => (ds, st2)
  finishStep r.1 { ctx with mode := .normal } r.2 i c

/-- The word-boundary import-name check run at a space or terminator while
inside an `IB_ID` block (linter.c lines 442-453). -/
def wordStep (line : List Char) (i : Nat) (c : Char) (ctx : ScanCtx)
    (st : LintState) (ds : List Diag) : List Diag × ScanCtx × LintState × Bool :=
  let start := ctx.word_start
  let len := i - start
  let r :=
    if ¬ correct_name_order st.last_import_name line start len then
      addFail st ds start
        (.incorrectImportNameOrder st.last_import_name
          ((line.drop start).take len))
    else (ds, st)
  finishStep r.1 ctx
    { r.2 with last_import_name := (line.drop start).take len } i c

/-- The `NORMAL`/`OPERATOR` part of the character loop (linter.c lines
323-456), shared by the fallthrough from `INDENT`.  Returns the accumulated
diagnostics, the loop locals, the state, and whether the loop returned. -/
def normalStep (line : List Char) (i : Nat) (c : Char) (ctx : ScanCtx)
    (st : LintState) (ds : List Diag) : List Diag × ScanCtx × LintState × Bool :=
  let ts := ctx.two_spaces ∧ c ≠ ' ' ∧ c ≠ ';'
  let ctx1 := if ts then { ctx with two_spaces := false } else ctx
  let r0 := if ts then addFail st ds i .unexpectedTwoSpaces else (ds, st)
  let ds1 := r0.1
  let st1 := r0.2
  if c = '"' then
    finishStep ds1 { ctx1 with mode := .string } { st1 with in_string := true } i c
  else if c = ';' then
    let r := if ctx1.prev ≠ ' ' then
        addFail st1 ds1 i .expectedSpaceBeforeSemicolon
      else (ds1, st1)
    finishStep r.1 { ctx1 with mode := .comment } r.2 i c
  else if c = '(' ∨ c = '[' then openStep i c ctx1 st1 ds1
  else if c = ')' ∨ c = ']' then closeStep line i c ctx1 st1 ds1
  else if c = ' ' ∨ c = '\n' then
    let ctx2 := if c = ' ' ∧ ctx1.prev = ' ' then { ctx1 with two_spaces := true }
      else ctx1
    if ctx2.mode = .operator then classifyStep line i c ctx2 st1 ds1
    else if st1.import_mode = ImportBlock.id then wordStep line i c ctx2 st1 ds1
    else finishStep ds1 ctx2 st1 i c
  else finishStep ds1 ctx1 st1 i c

/-- One iteration of the character loop of `lint_line` (linter.c lines
299-480): the tab check, then the dispatch on the current mode.  The final
boolean is true when the C loop executed `return`. -/
def lintStep (line : List Char) (no_align : Bool) (i : Nat) (c : Char)
    (ctx : ScanCtx) (st : LintState) (ds : List Diag) :
    List Diag × ScanCtx × LintState × Bool :=
  let r0 := if c = '\t' then addFail st ds i .illegalTab else (ds, st)
  let ds := r0.1
  let st := r0.2
  match ctx.mode with
  | .string =>
      if ¬ ctx.escaped ∧ c = '"' then
        finishStep ds { ctx with mode := .normal } { st with in_string := false } i c
      else finishStep ds ctx st i c
  | .comment =>
      if c = ';' then finishStep ds { ctx with mode := .commentSpace } st i c
      else if c ≠ ' ' then
        let r := addFail st ds i .expectedSpaceAfterSemicolon
        (r.1, ctx, r.2, true)
      else (ds, ctx, st, true)
  | .commentSpace =>
      if c ≠ ' ' then
        let r := addFail st ds i .expectedSpaceAfterSemicolon
        (r.1, ctx, r.2, true)
      else (ds, ctx, st, true)
  | .indent =>
      if c = ' ' then finishStep ds ctx st i c
      else
        let r :=
          if no_align = false ∧ i ≠ st.stack st.depth then
            if i = 0 ∧ st.depth = st.num_wrappers then
              (ds, { st with stack := upd st.stack st.depth 0 })
            else if (i : Int) = st.quoted_align then
              (ds, { st with
                stack := upd st.stack st.depth (intToU8 st.quoted_align),
                quoted_align := -1 })
            else addFail st ds i .incorrectIndentation
          else (ds, st)
        normalStep line i c { ctx with mode := .normal } r.2 r.1
  | .normal => normalStep line i c ctx st ds
  | .operator => normalStep line i c ctx st ds

/-- The character loop itself: `rest` is the unread suffix of `line`, `i` the
index of its first character. -/
def scanLoop (line : List Char) (no_align : Bool) :
    List Char → Nat → ScanCtx → LintState → List Diag → List Diag × LintState
  | [], _, _, st, ds => (ds, st)
  | c :: rest, i, ctx, st, ds =>
      let r := lintStep line no_align i c ctx st ds
      if r.2.2.2 then (r.1, r.2.2.1)
      else scanLoop line no_align rest (i + 1) r.2.1 r.2.2.1 r.1

/-- The body of `lint_line` after its `assert` preconditions: the blank-line
branch, the length and trailing-whitespace checks, the leading-semicolon
comment branch, and otherwise the character loop. -/
def lint_line_core (st : LintState) (line : List Char) :
    List Diag × LintState :=
  let line_len := line.length
  if line_len = 1 then
    let r := if ¬ st.in_string ∧ st.prev_blanks = 1 then
        addFail st [] 0 .multipleBlankLines
      else ([], st)
    (r.1, { r.2 with prev_blanks := r.2.prev_blanks + 1 })
  else
    let st := { st with prev_blanks := 0 }
    let r1 := if line_len - 1 > MAX_COLUMNS then
        addFail st [] (MAX_COLUMNS - 1) (.lineTooLong line_len MAX_COLUMNS)
      else ([], st)
    let r2 := if getC line (line_len - 2) = ' ' then
        addFail r1.2 r1.1 (line_len - 2) .trailingWhitespace
      else (r1.1, r1.2)
    let ds := r2.1
    let st := r2.2
    if getC line 0 = ';' then
      let i := 1 + countLeading ';' (line.drop 1)
      let r3 := if i > 3 then addFail st ds 0 .tooManySemicolons
        else if i = 3 ∧ st.lineno ≠ 1 then
          addFail st ds 0 .tripleSemicolonNotFirstLine
        else (ds, st)
      let r4 := if getC line i ≠ '\n' ∧ getC line i ≠ ' ' then
          addFail r3.2 r3.1 i .missingSpaceAfterSemicolon
        else (r3.1, r3.2)
      (r4.1, r4.2)
    else
      let no_align : Bool := decide (line_len ≥ NO_ALIGN.length) &&
        decide (strncmp (line.drop (line_len - NO_ALIGN.length)) NO_ALIGN
          NO_ALIGN.length = 0)
      let ctx : ScanCtx :=
        ⟨nul, false, false, 0, if st.in_string then .string else .indent⟩
      scanLoop line no_align line 0 ctx st ds

/-- The fresh `struct State` built at the top of `lint` (linter.c lines
490-503); note `quoted_align` starts at 0 there, not -1. -/
def initState : LintState :=
  { lineno := 1, status := false, prev_blanks := 0, in_string := false,
    num_wrappers := 0, quoted_align := 0, depth := 0, stack := fun _ => 0,
    import_mode := .none, last_import_id := [], last_import_name := [] }

/-- The `assert` preconditions at the top of `lint_line`: a nonempty,
newline-terminated line and a depth within `[0, MAX_DEPTH)`. -/
def entryOk (st : LintState) (line : List Char) : Bool :=
  decide (line ≠ []) && decide (getC line (line.length - 1) = '\n') &&
  decide (0 ≤ st.depth) && decide (st.depth < MAX_DEPTH)

/-- The read-and-lint loop of `lint`, with `Option.none` modelling an
assertion failure aborting the process. -/
def lintGo : LintState → List (List Char) → Option (List Diag × LintState)
  | st, [] => Option.some ([], st)
  | st, l :: ls =>
      if entryOk st l then
        let r := lint_line_core st l
        match lintGo { r.2 with lineno := r.2.lineno + 1 } ls with
        | Option.some r2 => Option.some (r.1 ++ r2.1, r2.2)
        | Option.none => Option.none
      else Option.none

/-- The same loop with the assertions skipped (total). -/
def lintGoT : LintState → List (List Char) → List Diag × LintState
  | st, [] => ([], st)
  | st, l :: ls =>
      let r := lint_line_core st l
      let r2 := lintGoT { r.2 with lineno := r.2.lineno + 1 } ls
      (r.1 ++ r2.1, r2.2)

/-- Whether every line of the file is reached with its `assert`
preconditions satisfied. -/
def assertsOk : LintState → List (List Char) → Bool
  | _, [] => true
  | st, l :: ls =>
      entryOk st l &&
      (let r := lint_line_core st l
       assertsOk { r.2 with lineno := r.2.lineno + 1 } ls)

/-- `lint` on an already-opened file. -/
def lintFile (lines : List (List Char)) : Option (List Diag × LintState) :=
  lintGo initState lines

/-- The per-file result contributed to the exit status: a file is given as
`Option.none` when it cannot be opened (`lint` returns 1), otherwise its
lines are scanned; `Option.none` in the result models the process aborting
on an assertion. -/
def fileStatus : Option (List (List Char)) → Option Bool
  | Option.none => Option.some true
  | Option.some ls => (lintFile ls).map (fun r => r.2.status)

/-- Whether a command-line file passes all checks. -/
def fileOk : Option (List (List Char)) → Bool
  | Option.none => false
  | Option.some ls =>
      match lintFile ls with
      | Option.some r => ! r.2.status
      | Option.none => false

/-- The accumulation loop of `main`: `status |= lint(argv[i])`. -/
def mainGo : Bool → List (Option (List (List Char))) → Option Bool
  | acc, [] => Option.some acc
  | acc, f :: fs =>
      match fileStatus f with
      | Option.some b => mainGo (acc || b) fs
      | Option.none => Option.none

/-- `main` from linter.c: no file arguments prints usage and exits 0;
otherwise the files are linted in order and the exit status is the OR of the
per-file results. -/
def mainModel (args : List (Option (List (List Char)))) : Option Nat :=
  if args.isEmpty then Option.some 0
  else (mainGo false args).map (fun b => if b then 1 else 0)

theorem strncmp_self : ∀ (n : Nat) (s : List Char), strncmp s s n = 0
  | 0, _ => rfl
  | n + 1, s => by
      unfold strncmp
      simp only [ne_eq, not_true_eq_false, if_false, ite_self]
      split
      · rfl
      · exact strncmp_self n s.tail

theorem correct_name_order_self (s : List Char) :
    correct_name_order s s 0 s.length = false := by
  simp [correct_name_order, strncmp_self]

theorem idLoop_all_eq (line : List Char) (len : Nat) :
    ∀ (q : List Char) (j : Nat) (first : Bool),
      nul ∉ q →
      (∀ k, k < q.length → getC line (j + k) = q.getD k nul ∧ j + k < len) →
      idLoop line 0 len q first j 0 = true := by
  intro q
  induction q with
  | nil =>
      intro j first _ _
      simp [idLoop, idEnd, headC, nul]
  | cons c q ih =>
      intro j first hnul h
      have h0 := h 0 (by simp)
      have hc : c ≠ nul := by
        intro hc; exact hnul (by simp [hc])
      have hjlen : j < len := by simpa using h0.2
      have hline : getC line (0 + j) = c := by
        have := h0.1
        simpa using this
      rw [idLoop]
      rw [if_neg (by push_neg; exact ⟨hc, hjlen⟩)]
      rw [hline]
      rw [if_neg (by simp)]
      have ihx : idLoop line 0 len q false (j + 1) 0 = true := by
        apply ih (j + 1) false (fun hm => hnul (List.mem_cons_of_mem _ hm))
        intro k hk
        have := h (k + 1) (by simpa using Nat.succ_lt_succ hk)
        constructor
        · have := this.1
          simpa [Nat.add_assoc, Nat.add_comm 1 k] using this
        · omega
      by_cases hd : c = '.'
      · rw [if_pos (by simp [hd])]
        rw [if_neg (by simp)]
        exact ihx
      · rw [if_neg (by simp [hd])]
        rw [if_neg (by simp [hd])]
        rw [if_neg (by simp [hd])]
        simpa using ihx

theorem idLoop_runs_out (line : List Char) (len : Nat) :
    ∀ (q : List Char) (j : Nat) (first : Bool),
      j ≤ len →
      len - j ≤ q.length →
      nul ∉ q.take (len - j) →
      (∀ k, k < len - j → getC line (j + k) = q.getD k nul) →
      idLoop line 0 len q first j 0 = idEnd line 0 len (q.drop (len - j)) len 0 := by
  intro q
  induction q with
  | nil =>
      intro j first hjle hle _ _
      have hz : len - j = 0 := by simpa using hle
      have hj : j = len := by omega
      subst hj
      simp [idLoop, Nat.sub_self]
  | cons c q ih =>
      intro j first hjle hle hnul h
      by_cases hj : j = len
      · subst hj
        rw [idLoop]
        rw [if_pos (Or.inr (by omega))]
        simp [Nat.sub_self]
      · have hjlt : j < len := by omega
        have hm : len - j = (len - (j + 1)) + 1 := by omega
        have hc : c ≠ nul := by
          intro hc
          apply hnul
          rw [hm]
          simp [hc]
        have hline : getC line (0 + j) = c := by
          have := h 0 (by omega)
          simpa using this
        rw [idLoop]
        rw [if_neg (by push_neg; exact ⟨hc, hjlt⟩)]
        rw [hline]
        rw [if_neg (by simp)]
        have hle2 : len - j ≤ q.length + 1 := by simpa using hle
        have ihx := ih (j + 1) false (by omega) (by omega)
          (by
            intro hmem
            apply hnul
            rw [hm, List.take_succ_cons]
            exact List.mem_cons_of_mem _ hmem)
          (by
            intro k hk
            have := h (k + 1) (by omega)
            simpa [Nat.add_assoc, Nat.add_comm 1 k] using this)
        have hdrop : q.drop (len - (j + 1)) = (c :: q).drop (len - j) := by
          rw [hm]
          simp
        rw [hdrop] at ihx
        by_cases hd : c = '.'
        · rw [if_pos (by simp [hd])]
          rw [if_neg (by simp)]
          exact ihx
        · rw [if_neg (by simp [hd])]
          rw [if_neg (by simp [hd])]
          rw [if_neg (by simp [hd])]
          simpa using ihx

theorem correct_id_order_self (p : List Char) (hnul : nul ∉ p) :
    correct_id_order p p 0 p.length = true := by
  unfold correct_id_order
  apply idLoop_all_eq p p.length p 0 true hnul
  intro k hk
  exact ⟨by simp [getC], by omega⟩

theorem correct_id_order_append (p s : List Char) (hnul : nul ∉ p) :
    correct_id_order p (p ++ s) 0 (p ++ s).length = true := by
  unfold correct_id_order
  apply idLoop_all_eq (p ++ s) (p ++ s).length p 0 true hnul
  intro k hk
  constructor
  · simp only [getC, Nat.zero_add]
    rw [List.getD_append _ _ _ _ hk]
  · simp
    omega

theorem correct_id_order_append_rev (p s : List Char) (hp : nul ∉ p)
    (hs : headC s ≠ nul) (hne : s ≠ []) :
    correct_id_order (p ++ s) p 0 p.length = false := by
  unfold correct_id_order
  rw [idLoop_runs_out p p.length (p ++ s) 0 true (by omega)
    (by simp) (by simpa [List.take_left] using hp)
    (by
      intro k hk
      simp only [Nat.zero_add, getC]
      rw [List.getD_append _ _ _ _ (by simpa using hk)])]
  rw [Nat.sub_zero, List.drop_left]
  unfold idEnd
  rw [if_neg (by simp)]
  simpa using hs

theorem correct_id_order_sigils (a b : List Char) :
    correct_id_order (':' :: a) ('?' :: b) 0 (b.length + 1) = true ∧
    correct_id_order ('?' :: b) (':' :: a) 0 (a.length + 1) = false := by
  constructor
  · unfold correct_id_order
    rw [idLoop]
    rw [if_neg (by push_neg; exact ⟨by decide, by omega⟩)]
    simp only [getC, Nat.zero_add, List.getD_cons_zero]
    rw [if_pos (by refine ⟨?_, by decide⟩; trivial)]
    decide
  · unfold correct_id_order
    rw [idLoop]
    rw [if_neg (by push_neg; exact ⟨by decide, by omega⟩)]
    simp only [getC, Nat.zero_add, List.getD_cons_zero]
    rw [if_pos (by refine ⟨?_, by decide⟩; trivial)]
    decide

theorem blank_line_step (st : LintState) :
    lint_line_core st ['\n'] =
      (if ¬ st.in_string ∧ st.prev_blanks = 1 then
        [⟨st.lineno, 0, Msg.multipleBlankLines⟩] else [],
       { st with prev_blanks := st.prev_blanks + 1,
                 status := if ¬ st.in_string ∧ st.prev_blanks = 1 then true
                   else st.status }) := by
  unfold lint_line_core
  rw [if_pos (by simp)]
  split
  · simp [addFail]
  · simp

theorem blanks_silent (st : LintState) (h : 2 ≤ st.prev_blanks) :
    ∀ k, (lintGoT st (List.replicate k ['\n'])).1 = [] := by
  intro k
  induction k generalizing st with
  | zero => rfl
  | succ k ih =>
      rw [List.replicate_succ, lintGoT, blank_line_step]
      rw [if_neg (by omega)]
      simpa using ih _ (by simp; omega)

/-- C7 (amended): provided the scanner reaches every line with its assert
preconditions satisfied — the nesting depth within [0, MAX_DEPTH) at the
start of each line, which in particular requires that closing delimiters
never outnumber opening ones — linting runs to completion, producing exactly
the diagnostics of the assertion-free scan.  (An unmatched closing delimiter
at depth 0 drives the depth negative and the next line aborts; see the
counterexample.) -/
theorem c7_completes_when_depth_in_range (st : LintState) (ls : List (List Char))
    (h : assertsOk st ls = true) :
    lintGo st ls = Option.some (lintGoT st ls) := by
  induction ls generalizing st with
  | nil => rfl
  | cons l ls ih =>
      rw [assertsOk, Bool.and_eq_true] at h
      simp only at h
      unfold lintGo lintGoT
      rw [if_pos h.1]
      simp only [ih _ h.2]

theorem fileStatus_of_isSome (f : Option (List (List Char)))
    (h : (fileStatus f).isSome) : fileStatus f = Option.some (! fileOk f) := by
  cases f with
  | none => rfl
  | some ls =>
      cases hl : lintFile ls with
      | none =>
          exfalso
          simp [fileStatus, hl] at h
      | some r =>
          simp [fileStatus, fileOk, hl]

theorem mainGo_or (fs : List (Option (List (List Char))))
    (h : ∀ f ∈ fs, (fileStatus f).isSome) :
    ∀ acc, mainGo acc fs = Option.some (acc || ! fs.all fileOk) := by
  induction fs with
  | nil => intro acc; simp [mainGo]
  | cons f fs ih =>
      intro acc
      have hf := fileStatus_of_isSome f (h f (by simp))
      rw [mainGo, hf]
      show mainGo (acc || ! fileOk f) fs = _
      rw [ih (fun g hg => h g (by simp [hg]))]
      simp [List.all_cons, Bool.not_and, Bool.or_assoc]

theorem scanLoop_in_string (line : List Char) (na : Bool) (st : LintState) :
    ∀ (rest : List Char) (i : Nat) (p : Char) (e t : Bool) (w : Nat)
      (ds : List Diag),
      (∀ c ∈ rest, c ≠ '"' ∧ c ≠ '\t') →
      scanLoop line na rest i ⟨p, e, t, w, .string⟩ st ds = (ds, st) := by
  intro rest
  induction rest with
  | nil => intro i p e t w ds _; rfl
  | cons c rest ih =>
      intro i p e t w ds h
      have hc := h c (by simp)
      rw [scanLoop]
      simp only [lintStep, finishStep, hc.1, hc.2, if_false, and_false,
        ite_false, if_neg (show ¬ (c = '\t') from hc.2),
        if_neg (show ¬ ((e = false) ∧ c = '\"') from fun hx => hc.1 hx.2)]
      exact ih (i + 1) _ _ _ _ _ (fun x hx => h x (by simp [hx]))

/-- C5 (amended): a line whose scan begins inside a string is scanned in
string mode: if the line does not start with a semicolon, contains no quote
and no tab, fits in the column budget and has no trailing space, then no
diagnostic at all is produced and the state is unchanged apart from the
blank-line counter reset — no indentation or code check applies.  (The
early per-line checks — blank line, length, trailing whitespace, and the
leading-semicolon comment branch — still run even mid-string; see the
counterexample.) -/
theorem c5_midstring_line_resumes_in_string (st : LintState) (line : List Char)
    (hs : st.in_string = true) (h2 : 2 ≤ line.length)
    (hsem : getC line 0 ≠ ';') (hq : '"' ∉ line) (ht : '\t' ∉ line)
    (hlen : line.length - 1 ≤ MAX_COLUMNS)
    (htr : getC line (line.length - 2) ≠ ' ') :
    lint_line_core st line = ([], { st with prev_blanks := 0 }) := by
  simp only [lint_line_core]
  rw [if_neg (show ¬ line.length = 1 by omega)]
  simp only [if_neg (show ¬ line.length - 1 > MAX_COLUMNS by omega),
    if_neg htr, if_neg hsem, hs, if_true]
  exact scanLoop_in_string line _ _ line 0 nul false false 0 []
    (fun c hc => ⟨fun hx => hq (hx ▸ hc), fun hx => ht (hx ▸ hc)⟩)

/-- C2 (amended): a run of k ≥ 2 consecutive blank lines scanned outside a
string produces exactly ONE "multiple blank lines" diagnostic, at the second
blank line of the run — not one diagnostic per excess blank line. -/
theorem c2_blank_run_emits_one_diagnostic (st : LintState) (k : Nat) (h2 : 2 ≤ k)
    (h0 : st.prev_blanks = 0) (hs : st.in_string = false) :
    (lintGoT st (List.replicate k ['\n'])).1 =
      [⟨st.lineno + 1, 0, Msg.multipleBlankLines⟩] := by
  obtain ⟨m, rfl⟩ : ∃ m, k = m + 2 := ⟨k - 2, by omega⟩
  rw [show m + 2 = (m + 1) + 1 by omega]
  rw [List.replicate_succ, lintGoT, blank_line_step]
  rw [if_neg (by simp [h0])]
  dsimp only
  rw [List.replicate_succ, lintGoT, blank_line_step]
  rw [if_pos (by simp [h0, hs])]
  dsimp only
  rw [blanks_silent _ (by dsimp only; omega) m]
  simp

theorem finishStep_st (ds : List Diag) (ctx : ScanCtx) (st : LintState)
    (i : Nat) (c : Char) : (finishStep ds ctx st i c).2.2.1 = st := rfl

theorem openStep_wrappers (i : Nat) (c : Char) (ctx : ScanCtx)
    (st : LintState) (ds : List Diag) :
    (openStep i c ctx st ds).2.2.1.num_wrappers = st.num_wrappers := by
  unfold openStep finishStep addFail
  dsimp only
  split_ifs <;> rfl

theorem closeStep_wrappers (line : List Char) (i : Nat) (c : Char)
    (ctx : ScanCtx) (st : LintState) (ds : List Diag) :
    (closeStep line i c ctx st ds).2.2.1.num_wrappers = st.num_wrappers := by
  unfold closeStep finishStep addFail
  dsimp only
  split_ifs <;> rfl

theorem classifyStep_wrappers (line : List Char) (i : Nat) (c : Char)
    (ctx : ScanCtx) (st : LintState) (ds : List Diag) :
    st.num_wrappers ≤ (classifyStep line i c ctx st ds).2.2.1.num_wrappers := by
  unfold classifyStep finishStep addFail
  dsimp only
  repeat' split
  all_goals (try dsimp only)
  all_goals omega

theorem wordStep_wrappers (line : List Char) (i : Nat) (c : Char)
    (ctx : ScanCtx) (st : LintState) (ds : List Diag) :
    (wordStep line i c ctx st ds).2.2.1.num_wrappers = st.num_wrappers := by
  unfold wordStep finishStep addFail
  dsimp only
  split_ifs <;> rfl

set_option maxHeartbeats 1000000 in
theorem normalStep_wrappers (line : List Char) (i : Nat) (c : Char)
    (ctx : ScanCtx) (st : LintState) (ds : List Diag) :
    st.num_wrappers ≤ (normalStep line i c ctx st ds).2.2.1.num_wrappers := by
  unfold normalStep
  dsimp only
  by_cases hts : ctx.two_spaces = true ∧ c ≠ ' ' ∧ c ≠ ';' <;>
    [simp only [if_pos hts, addFail]; simp only [if_neg hts]] <;>
    (try dsimp only) <;>
  · by_cases h1 : c = '"'
    · rw [if_pos h1, finishStep_st]
      all_goals (try dsimp only)
      all_goals omega
    rw [if_neg h1]
    by_cases h2 : c = ';'
    · rw [if_pos h2, finishStep_st]
      repeat' split
      all_goals (try dsimp only [addFail])
      all_goals omega
    rw [if_neg h2]
    by_cases h3 : c = '(' ∨ c = '['
    · rw [if_pos h3, openStep_wrappers]
      all_goals (try dsimp only)
      all_goals omega
    rw [if_neg h3]
    by_cases h4 : c = ')' ∨ c = ']'
    · rw [if_pos h4, closeStep_wrappers]
      all_goals (try dsimp only)
      all_goals omega
    rw [if_neg h4]
    by_cases h5 : c = ' ' ∨ c = '\n'
    · rw [if_pos h5]
      all_goals (try dsimp only)
      all_goals (try split)
      all_goals (try dsimp only)
      all_goals (try split)
      all_goals (try dsimp only)
      all_goals (try split)
      all_goals (try dsimp only)
      all_goals
        first
        | (rw [wordStep_wrappers]; all_goals ((try dsimp only); omega))
        | (rw [finishStep_st]; all_goals ((try dsimp only); omega))
        | (refine le_trans ?_ (classifyStep_wrappers line i c _ _ _);
           all_goals ((try dsimp only); omega))
        | omega
    · rw [if_neg h5, finishStep_st]
      all_goals (try dsimp only)
      all_goals omega

set_option maxHeartbeats 1000000 in
theorem lintStep_wrappers (line : List Char) (na : Bool) (i : Nat) (c : Char)
    (ctx : ScanCtx) (st : LintState) (ds : List Diag) :
    st.num_wrappers ≤ (lintStep line na i c ctx st ds).2.2.1.num_wrappers := by
  obtain ⟨p, e, t, w, m⟩ := ctx
  unfold lintStep
  dsimp only
  by_cases htab : c = '\t' <;>
    [simp only [if_pos htab, addFail]; simp only [if_neg htab]] <;>
    (try dsimp only) <;>
  · cases m <;> (try dsimp only)
    · split
      · rw [finishStep_st]
        all_goals ((try dsimp only); omega)
      · refine le_trans ?_ (normalStep_wrappers line i c _ _ _)
        repeat' split
        all_goals (try dsimp only [addFail])
        all_goals omega
    · exact le_trans (by (try dsimp only); omega)
        (normalStep_wrappers line i c _ _ _)
    · exact le_trans (by (try dsimp only); omega)
        (normalStep_wrappers line i c _ _ _)
    · split <;> rw [finishStep_st] <;>
        all_goals ((try dsimp only); omega)
    · repeat' split
      all_goals (try rw [finishStep_st])
      all_goals (try dsimp only [addFail])
      all_goals omega
    · repeat' split
      all_goals (try dsimp only [addFail])
      all_goals omega

theorem scanLoop_wrappers (line : List Char) (na : Bool) :
    ∀ (rest : List Char) (i : Nat) (ctx : ScanCtx) (st : LintState)
      (ds : List Diag),
      st.num_wrappers ≤ (scanLoop line na rest i ctx st ds).2.num_wrappers := by
  intro rest
  induction rest with
  | nil => intro i ctx st ds; exact le_refl _
  | cons c rest ih =>
      intro i ctx st ds
      rw [scanLoop]
      (try dsimp only)
      split
      · exact lintStep_wrappers line na i c ctx st ds
      · exact le_trans (lintStep_wrappers line na i c ctx st ds) (ih _ _ _ _)

theorem lint_line_core_wrappers (st : LintState) (line : List Char) :
    st.num_wrappers ≤ (lint_line_core st line).2.num_wrappers := by
  unfold lint_line_core
  dsimp only
  split
  · split
    all_goals (try dsimp only [addFail])
    all_goals omega
  · split
    · repeat' split
      all_goals (try dsimp only [addFail])
      all_goals omega
    · refine le_trans ?_ (scanLoop_wrappers line _ line 0 _ _ _)
      repeat' split
      all_goals (try dsimp only [addFail])
      all_goals omega

theorem lintGoT_wrappers (ls : List (List Char)) :
    ∀ st : LintState,
      st.num_wrappers ≤ (lintGoT st ls).2.num_wrappers := by
  induction ls with
  | nil => intro st; exact le_refl _
  | cons l ls ih =>
      intro st
      rw [lintGoT]
      dsimp only
      exact le_trans (lint_line_core_wrappers st l) (ih _)

theorem char_toNat_inj (a b : Char) (h : a.toNat = b.toNat) : a = b := by
  have := congrArg Char.ofNat h
  simpa [Char.ofNat_toNat] using this

theorem strncmp_eq_zero_iff :
    ∀ (n : Nat) (s t : List Char), n ≤ s.length → (∀ c ∈ s, c ≠ nul) →
      (strncmp s t n = 0 ↔ t.take n = s.take n)
  | 0, s, t, _, _ => by simp [strncmp]
  | n + 1, [], t, hn, _ => by simp at hn
  | n + 1, c :: s, t, hn, hnul => by
      have hc : c ≠ nul := hnul c (by simp)
      have hct : (c.toNat : Int) ≠ 0 := by
        intro hx
        exact hc (char_toNat_inj c nul (by
          have : c.toNat = 0 := by exact_mod_cast hx
          simpa [nul] using this))
      cases t with
      | nil =>
          rw [strncmp]
          simp only [getC, List.getD]
          constructor
          · intro hz
            exfalso
            rw [if_pos (by simpa [nul] using hc)] at hz
            simp [nul] at hz
            exact hct (by omega)
          · intro hz
            simp at hz
      | cons d t =>
          rw [strncmp]
          simp only [getC, List.getD_cons_zero]
          by_cases hcd : c = d
          · subst hcd
            rw [if_neg (by simp)]
            rw [if_neg hc]
            simp only [List.tail_cons]
            rw [strncmp_eq_zero_iff n s t (by simpa using hn)
              (fun x hx => hnul x (by simp [hx]))]
            simp [List.take_succ_cons]
          · rw [if_pos hcd]
            constructor
            · intro hz
              exfalso
              exact hcd (char_toNat_inj c d (by omega))
            · intro hz
              exfalso
              rw [List.take_succ_cons, List.take_succ_cons] at hz
              exact hcd (by injection hz with h1 _; exact h1.symm)

theorem scanRules_eq_scanTok (s : List Char) (len : Nat)
    (hn : len ≤ s.length) (hnul : ∀ c ∈ s, c ≠ nul) :
    ∀ table, scanRules s len table = scanTok (s.take len) table := by
  intro table
  induction table with
  | nil => rfl
  | cons e rest ih =>
      rw [scanRules, scanTok]
      have hlt : (s.take len).length = len := by simp [hn]
      rw [hlt]
      by_cases hm : strncmp s e.1 len = 0
      · rw [if_pos hm, if_pos ((strncmp_eq_zero_iff len s e.1 hn hnul).mp hm)]
      · rw [if_neg hm,
          if_neg (fun hx => hm ((strncmp_eq_zero_iff len s e.1 hn hnul).mpr hx))]
        exact ih

theorem scanTok_none (tok : List Char) :
    ∀ table, (∀ e ∈ table, e.1.take tok.length ≠ tok) →
      scanTok tok table = Option.none := by
  intro table
  induction table with
  | nil => intro _; rfl
  | cons e rest ih =>
      intro h
      rw [scanTok, if_neg (h e (by simp))]
      exact ih (fun x hx => h x (by simp [hx]))

theorem scanTok_self_of_mem :
    ∀ e ∈ INDENT_RULES, scanTok e.1 INDENT_RULES = Option.some e.2 := by
  decide

/-- C1 (amended): the indentation-rule lookup is a linear scan whose
`strncmp` comparison is truncated to the token length, so the token matches
the first table entry of which it is a prefix, not only an exact equal: a
token that is a prefix of no entry name receives the empty DEFAULT rule set,
and a token exactly equal to an entry name receives the rules of that entry (with
the wrapper bit cleared unless the operator starts at column 1). -/
theorem c1_lookup_matches_truncated_token (line : List Char) (start len : Nat)
    (hlen : start + len ≤ line.length) (hnul : ∀ c ∈ line, c ≠ nul) :
    ((∀ e ∈ INDENT_RULES, e.1.take len ≠ (line.drop start).take len) →
      lookup_indent_rules line start len = IR_DEFAULT) ∧
    (∀ e ∈ INDENT_RULES, (line.drop start).take len = e.1 →
      lookup_indent_rules line start len =
        (if start ≠ 1 then { e.2 with wrapper := false } else e.2)) := by
  have hn : len ≤ (line.drop start).length := by simp; omega
  have hnul2 : ∀ c ∈ line.drop start, c ≠ nul :=
    fun c hc => hnul c (List.mem_of_mem_drop hc)
  have hsc := scanRules_eq_scanTok (line.drop start) len hn hnul2 INDENT_RULES
  have hlt : ((line.drop start).take len).length = len := by simp; omega
  constructor
  · intro h
    unfold lookup_indent_rules
    rw [hsc, scanTok_none _ _ (by
      intro e he
      rw [hlt]
      exact h e he)]
  · intro e he htok
    unfold lookup_indent_rules
    rw [hsc, htok, scanTok_self_of_mem e he]

theorem comment_line_diags (st : LintState) (line : List Char)
    (h0 : getC line 0 = ';') (h1 : ¬ line.length = 1) :
    (lint_line_core st line).1 =
      (if line.length - 1 > MAX_COLUMNS then
        [⟨st.lineno, MAX_COLUMNS - 1, Msg.lineTooLong line.length MAX_COLUMNS⟩]
      else []) ++
      (if getC line (line.length - 2) = ' ' then
        [⟨st.lineno, line.length - 2, Msg.trailingWhitespace⟩]
      else []) ++
      ((if 1 + countLeading ';' (line.drop 1) > 3 then
          [⟨st.lineno, 0, Msg.tooManySemicolons⟩]
        else if 1 + countLeading ';' (line.drop 1) = 3 ∧ st.lineno ≠ 1 then
          [⟨st.lineno, 0, Msg.tripleSemicolonNotFirstLine⟩]
        else []) ++
       (if getC line (1 + countLeading ';' (line.drop 1)) ≠ '\n' ∧
            getC line (1 + countLeading ';' (line.drop 1)) ≠ ' ' then
          [⟨st.lineno, 1 + countLeading ';' (line.drop 1),
            Msg.missingSpaceAfterSemicolon⟩]
        else [])) := by
  simp only [lint_line_core]
  rw [if_neg h1, if_pos h0]
  simp only [addFail]
  (try dsimp only)
  split_ifs <;> simp

set_option maxRecDepth 10000

/-- C1 counterexample: the operator token `le` in the line `(le x)` is not
equal to any entry of the static rule table, yet the lookup returns the
SPECIAL rule set (matched against the entry `let` by the length-truncated
comparison) rather than the empty DEFAULT set — refuting the exact-text
matching claim. -/
theorem c1_counterexample_prefix_token_matches :
    INDENT_RULES.all (fun e => decide (e.1 ≠ "le".data)) = true ∧
    lookup_indent_rules "(le x)\n".data 1 2 = ⟨true, false, false⟩ ∧
    lookup_indent_rules "(le x)\n".data 1 2 ≠ IR_DEFAULT :=
  ⟨by decide, by decide, by decide⟩

/-- C1 witness: the amended lookup theorem applied to the concrete line
`(define x)` with the token `define`, an exact table match yielding the
SPECIAL rule set. -/
theorem c1_witness :
    1 + 6 ≤ "(define x)\n".data.length ∧
    (∀ c ∈ "(define x)\n".data, c ≠ nul) ∧
    lookup_indent_rules "(define x)\n".data 1 6 = ⟨true, false, false⟩ :=
  ⟨by decide, by decide, by
    have h := (c1_lookup_matches_truncated_token "(define x)\n".data 1 6
      (by decide) (by decide)).2
      ("define".data, ⟨true, false, false⟩) (by decide) (by decide)
    simpa using h⟩

/-- C2 counterexample: three consecutive blank lines produce a single
"multiple blank lines" diagnostic (at line 2), not N - 1 = 2 diagnostics as
the claim states. -/
theorem c2_counterexample_three_blanks_one_diag :
    (lintGoT initState (List.replicate 3 ['\n'])).1 =
      [⟨2, 0, Msg.multipleBlankLines⟩] ∧
    (lintGoT initState (List.replicate 3 ['\n'])).1.length ≠ 3 - 1 :=
  ⟨by decide, by decide⟩

/-- C2 witness: the amended blank-run theorem applied to two blank lines
from the initial state. -/
theorem c2_witness :
    (2 : Nat) ≤ 2 ∧ initState.prev_blanks = 0 ∧ initState.in_string = false ∧
    (lintGoT initState (List.replicate 2 ['\n'])).1 =
      [⟨2, 0, Msg.multipleBlankLines⟩] :=
  ⟨by decide, rfl, rfl, by
    have h := c2_blank_run_emits_one_diagnostic initState 2 (by decide) rfl rfl
    simpa using h⟩

/-- C3: a line of exactly 81 columns excluding the terminator is flagged at
one-based column 80, but the diagnostic text reports the length INCLUDING
the terminator: the `fail` call passes `line_len` (82), not `line_len - 1`
(81), to the format string, so the message reads "line too long: 82 > 80"
where the claim (and the guard `line_len - 1 > MAX_COLUMNS`) say 81. -/
theorem c3_line_too_long_report :
    (lint_line_core initState (List.replicate 81 'a' ++ ['\n'])).1 =
      [⟨1, 79, Msg.lineTooLong 82 80⟩] ∧
    lineTooLongText 82 80 = "line too long: 82 > 80" ∧
    lineTooLongText 81 80 = "line too long: 81 > 80" :=
  ⟨by decide, by decide, by decide⟩

/-- C4 counterexample: after a top-level wrapper form `(SICP ... )` is closed
the depth returns to 0 but `num_wrappers` remains 1 (the field is never
decremented), so it does not equal the number of currently-open wrapper
forms; consequently a second top-level wrapper form in the same file is NOT
treated like the first: its flush-left contents are flagged as incorrectly
indented (line 5), while the same contents inside the first wrapper (line 2)
were accepted. -/
theorem c4_counterexample_wrapper_count_not_decremented :
    (lintGoT initState (["(SICP\n", "x\n", ")\n"].map String.data)).2.depth = 0 ∧
    (lintGoT initState
      (["(SICP\n", "x\n", ")\n"].map String.data)).2.num_wrappers = 1 ∧
    (lintGoT initState
      (["(SICP\n", "x\n", ")\n", "(SICP\n", "x\n"].map String.data)).1 =
      [⟨5, 0, Msg.incorrectIndentation⟩] :=
  ⟨by decide, by decide, by decide⟩

/-- C4 (amended): `num_wrappers` counts the wrapper forms ENCOUNTERED so far
and is never decremented: it is monotonically nondecreasing across every
line scan and across a whole file scan.  Closing a wrapper form leaves the
count unchanged. -/
theorem c4_wrapper_count_monotone :
    (∀ (st : LintState) (line : List Char),
      st.num_wrappers ≤ (lint_line_core st line).2.num_wrappers) ∧
    (∀ (ls : List (List Char)) (st : LintState),
      st.num_wrappers ≤ (lintGoT st ls).2.num_wrappers) :=
  ⟨lint_line_core_wrappers, lintGoT_wrappers⟩

/-- C5 counterexample: a physical line beginning with a semicolon while the
scan is inside a string (the string was opened on line 1 and not closed) is
processed by the leading-semicolon comment branch — here producing a
"missing space" diagnostic — instead of being consumed in string mode with
no diagnostic, refuting the including-semicolon-lines claim. -/
theorem c5_counterexample_semicolon_line_in_string :
    (lintGoT initState (["\"x\n", ";x\n"].map String.data)).1 =
      [⟨2, 1, Msg.missingSpaceAfterSemicolon⟩] ∧
    (lintGoT initState (["\"x\n"].map String.data)).2.in_string = true :=
  ⟨by decide, by decide⟩

/-- C5 witness: the amended mid-string theorem applied to the concrete line
`abc` scanned from a state inside a string. -/
theorem c5_witness :
    ({ initState with in_string := true } : LintState).in_string = true ∧
    ('"' ∉ "abc\n".data) ∧
    lint_line_core { initState with in_string := true } "abc\n".data =
      ([], { { initState with in_string := true } with prev_blanks := 0 }) :=
  ⟨rfl, by decide, c5_midstring_line_resumes_in_string _ _ rfl (by decide)
    (by decide) (by decide) (by decide) (by decide) (by decide)⟩

/-- C6: the dotted-identifier comparator orders the sigil `:` strictly
before the sigil `?` (in both argument orders), and whenever the two
identifiers share a prefix with no unresolved in-segment difference — one
being a strict prefix of the other, the shorter terminating where the longer
continues — the shorter orders before the longer (the missing character is
compared as a terminating dot). -/
theorem c6_id_order_sigils_and_termination :
    (∀ a b : List Char,
      correct_id_order (':' :: a) ('?' :: b) 0 (b.length + 1) = true ∧
      correct_id_order ('?' :: b) (':' :: a) 0 (a.length + 1) = false) ∧
    (∀ p s : List Char, nul ∉ p → headC s ≠ nul → s ≠ [] →
      correct_id_order p (p ++ s) 0 (p ++ s).length = true ∧
      correct_id_order (p ++ s) p 0 p.length = false) := by
  refine ⟨correct_id_order_sigils, ?_⟩
  intro p s hp hs hne
  exact ⟨correct_id_order_append p s hp,
    correct_id_order_append_rev p s hp hs hne⟩

/-- C6 witness: the identifier `:1` orders before `:1.2` and not conversely. -/
theorem c6_witness :
    nul ∉ ":1".data ∧ headC ".2".data ≠ nul ∧ ".2".data ≠ [] ∧
    correct_id_order ":1".data (":1".data ++ ".2".data) 0
      (":1".data ++ ".2".data).length = true ∧
    correct_id_order (":1".data ++ ".2".data) ":1".data 0
      ":1".data.length = false :=
  ⟨by decide, by decide, by decide,
    (c6_id_order_sigils_and_termination.2 ":1".data ".2".data
      (by decide) (by decide) (by decide)).1,
    (c6_id_order_sigils_and_termination.2 ":1".data ".2".data
      (by decide) (by decide) (by decide)).2⟩

/-- C7 counterexample: a file whose nesting never exceeds the maximum depth
but contains an unmatched closing delimiter makes the scan abort: the lone
`)` drives the depth to -1, and the assertion at the start of the next line
fires (the run returns no result), refuting the claim that the assertion
branch is unreachable for all such malformed inputs. -/
theorem c7_counterexample_unmatched_close_aborts :
    lintGo initState ([")\n", "x\n"].map String.data) = Option.none ∧
    (lintGoT initState ([")\n"].map String.data)).2.depth = -1 := by
  constructor
  · rfl
  · decide

/-- C7 witness: the amended completion theorem applied to a well-formed
one-line file. -/
theorem c7_witness :
    assertsOk initState (["(a)\n"].map String.data) = true ∧
    lintGo initState (["(a)\n"].map String.data) =
      Option.some (lintGoT initState (["(a)\n"].map String.data)) :=
  ⟨by decide, c7_completes_when_depth_in_range initState _ (by decide)⟩

/-- C8: for a line starting with a semicolon, writing r for the length of
its initial semicolon run: if r is 1 or 2 and the following character is a
space or the terminator, neither a "too many semicolons" nor a
missing-space diagnostic is produced; if r ≥ 4, a "too many semicolons"
diagnostic is always produced; and if r = 3, the reserved-for-copyright
diagnostic is produced exactly when the line is not the first line of the
file. -/
theorem c8_comment_marker_runs (st : LintState) (line : List Char)
    (h0 : getC line 0 = ';') (h1 : 2 ≤ line.length) :
    (1 + countLeading ';' (line.drop 1) ≤ 2 →
      (getC line (1 + countLeading ';' (line.drop 1)) = ' ' ∨
       getC line (1 + countLeading ';' (line.drop 1)) = '\n') →
      ∀ d ∈ (lint_line_core st line).1,
        d.msg ≠ Msg.tooManySemicolons ∧
        d.msg ≠ Msg.missingSpaceAfterSemicolon) ∧
    (4 ≤ 1 + countLeading ';' (line.drop 1) →
      (⟨st.lineno, 0, Msg.tooManySemicolons⟩ : Diag) ∈ (lint_line_core st line).1) ∧
    (1 + countLeading ';' (line.drop 1) = 3 →
      ((⟨st.lineno, 0, Msg.tripleSemicolonNotFirstLine⟩ : Diag) ∈
        (lint_line_core st line).1 ↔ st.lineno ≠ 1)) := by
  have hsh := comment_line_diags st line h0 (by omega)
  refine ⟨?_, ?_, ?_⟩
  · intro hr hsp d hd
    rw [hsh] at hd
    simp only [List.mem_append] at hd
    rcases hd with (hd | hd) | hd | hd
    · revert hd
      split <;> intro hd <;> simp at hd
      subst hd
      exact ⟨by simp, by simp⟩
    · revert hd
      split <;> intro hd <;> simp at hd
      subst hd
      exact ⟨by simp, by simp⟩
    · rw [if_neg (by omega)] at hd
      rw [if_neg (by omega)] at hd
      simp at hd
    · rw [if_neg (by tauto)] at hd
      simp at hd
  · intro hr
    rw [hsh]
    simp only [List.mem_append]
    refine Or.inr (Or.inl ?_)
    rw [if_pos (by omega)]
    simp
  · intro hr
    rw [hsh]
    simp only [List.mem_append]
    constructor
    · intro hd
      rcases hd with (hd | hd) | hd | hd
      · revert hd
        split <;> intro hd <;> simp at hd
      · revert hd
        split <;> intro hd <;> simp at hd
      · rw [if_neg (by omega)] at hd
        revert hd
        split <;> intro hd <;> simp at hd
        rename_i hcond
        exact hcond.2
      · revert hd
        split <;> intro hd <;> simp at hd
    · intro hlin
      refine Or.inr (Or.inl ?_)
      rw [if_neg (by omega), if_pos ⟨hr, hlin⟩]
      simp

/-- C8 witness: the claim theorem applied to the line `;;;; x` on the first
line of a file: four semicolons always produce a "too many semicolons"
diagnostic. -/
theorem c8_witness :
    getC ";;;; x\n".data 0 = ';' ∧ 2 ≤ ";;;; x\n".data.length ∧
    4 ≤ 1 + countLeading ';' (";;;; x\n".data.drop 1) ∧
    (⟨1, 0, Msg.tooManySemicolons⟩ : Diag) ∈
      (lint_line_core initState ";;;; x\n".data).1 :=
  ⟨by decide, by decide, by decide, by
    have h := (c8_comment_marker_runs initState ";;;; x\n".data
      (by decide) (by decide)).2.1 (by decide)
    simpa using h⟩

/-- C9: invoked with zero file arguments the program exits with status 0
(usage); with one or more files (each either unopenable or scanned to
completion) the exit status is 0 when every file passed all checks and 1
when some file failed or could not be opened — the OR-aggregation of the
per-file results in argument order. -/
theorem c9_exit_status_aggregation :
    mainModel [] = Option.some 0 ∧
    ∀ args : List (Option (List (List Char))), args ≠ [] →
      (∀ f ∈ args, (fileStatus f).isSome) →
      mainModel args = Option.some (if args.all fileOk then 0 else 1) := by
  refine ⟨rfl, ?_⟩
  intro args hne h
  unfold mainModel
  rw [if_neg (by simpa using hne)]
  rw [mainGo_or args h false]
  cases hall : args.all fileOk <;> simp [hall]

/-- C9 witness: the scenario of one clean file followed by one file with a
single violation (an 81-column line): the aggregate exit status is 1. -/
theorem c9_witness :
    ([Option.some ["(a)\n".data],
      Option.some [List.replicate 81 'a' ++ ['\n']]] ≠
        ([] : List (Option (List (List Char))))) ∧
    (∀ f ∈ [Option.some ["(a)\n".data],
      Option.some [List.replicate 81 'a' ++ ['\n']]], (fileStatus f).isSome) ∧
    mainModel [Option.some ["(a)\n".data],
      Option.some [List.replicate 81 'a' ++ ['\n']]] =
      Option.some (if ([Option.some ["(a)\n".data],
        Option.some [List.replicate 81 'a' ++ ['\n']]].all fileOk) then 0 else 1) ∧
    ([Option.some ["(a)\n".data],
      Option.some [List.replicate 81 'a' ++ ['\n']]].all fileOk) = false :=
  ⟨by decide, by decide, c9_exit_status_aggregation.2 _ (by decide) (by decide),
    by decide⟩

/-- C10: the name comparator is strict — two identical consecutive import
names compare as incorrectly ordered (equality is a violation) and, in a
concrete ID block, produce the "incorrect import name ordering" diagnostic —
whereas the id comparator accepts equality, so two identical consecutive
section ids in a USE block produce no ordering diagnostic, shown both on the
comparators and on two concrete files. -/
theorem c10_name_equality_flagged_id_equality_not :
    (∀ s : List Char, correct_name_order s s 0 s.length = false) ∧
    (∀ p : List Char, nul ∉ p → correct_id_order p p 0 p.length = true) ∧
    (lintGoT initState
      (["(Chapter :1\n", "  (use (?1.1 foo foo)))\n"].map String.data)).1 =
      [⟨2, 17, Msg.incorrectImportNameOrder "foo".data "foo".data⟩] ∧
    (lintGoT initState
      (["(Chapter :1\n", "  (use (?1.1 a)\n",
        "       (?1.1 b)))\n"].map String.data)).1 = [] :=
  ⟨correct_name_order_self, correct_id_order_self, by decide, by decide⟩

/-- C10 witness: the id comparator applied to the identical exercise id
`?1.1` on both sides accepts the pair. -/
theorem c10_witness :
    nul ∉ "?1.1".data ∧
    correct_id_order "?1.1".data "?1.1".data 0 "?1.1".data.length = true :=
  ⟨by decide,
    c10_name_equality_flagged_id_equality_not.2.1 "?1.1".data (by decide)⟩

end SchemeLint
